import Mathlib

/-!
# Verification of the qbin document storage engine

A shallow embedding of the qbin backend (`model.go` and the name-generator
file) into Lean 4, together with theorems settling the specification claims
about it.

Conventions of the embedding:

* Go `time.Time` values are modelled by `GoTime` (seconds since the unix
  epoch, possibly negative, plus a nanosecond component); Go's zero time
  (January 1, year 1 UTC) is `goZeroTime`.
* The SQL database is modelled as an association list from the string key
  used in the WHERE clause to the stored row; the engine's calls to the
  database and to the external collaborators are additionally recorded in an
  event trace so that theorems can speak about which key each operation used.
* External collaborators that live outside the given source files
  (highlighting, HTML escaping, spam filtering, scrypt, AES encrypt/decrypt,
  HTML stripping) are passed to the engine as function parameters; where a
  claim needs their behaviour, it is stated as a hypothesis taken from the
  spec's description of the collaborator.
* Go machine integers are modelled as `Int` (views counter) or `Nat`
  (indices); SHA-256 is implemented over `Nat` with explicit reduction
  modulo 2^32.
-/

/-! ## Go time values -/

/-- A Go `time.Time`, reduced to the data the engine observes: seconds since
the unix epoch (negative for instants before 1970) and a nanosecond
component. -/
structure GoTime where
  sec : Int
  nsec : Int
deriving DecidableEq, Repr

/-- Go's zero `time.Time{}`: January 1, year 1, 00:00:00 UTC. -/
def goZeroTime : GoTime := ⟨-62135596800, 0⟩

/-- The instant `time.Unix(0, 1)`: one nanosecond after the unix epoch. -/
def unixEpochPlus1ns : GoTime := ⟨0, 1⟩

/-- Go's `t.Before(u)`: strict chronological order. -/
def GoTime.before (t u : GoTime) : Bool :=
  t.sec < u.sec || (t.sec = u.sec && t.nsec < u.nsec)

/-- Go's `t.Round(time.Second)`: round to the nearest second, half away from
zero (the engine only ever rounds non-negative wall-clock instants, and
claims never depend on the tie-breaking). -/
def GoTime.roundSec (t : GoTime) : GoTime :=
  if t.nsec ≥ 500000000 then ⟨t.sec + 1, 0⟩ else ⟨t.sec, 0⟩

/-! ## The timestamp layout `"2006-01-02 15:04:05"`

`daysFromCivil`/`civilFromDays` are the standard proleptic-Gregorian
conversions (as used by Go's time package), written with truncating integer
division exactly as Go computes them. -/

/-- Days since the unix epoch of the civil date `(y, m, d)`. -/
def daysFromCivil (y m d : Int) : Int :=
  let y' := y - (if m ≤ 2 then 1 else 0)
  let era := Int.tdiv (if 0 ≤ y' then y' else y' - 399) 400
  let yoe := y' - era * 400
  let doy := Int.tdiv (153 * (m + (if 2 < m then -3 else 9)) + 2) 5 + d - 1
  let doe := yoe * 365 + Int.tdiv yoe 4 - Int.tdiv yoe 100 + doy
  era * 146097 + doe - 719468

/-- Civil date `(y, m, d)` of the given number of days since the unix epoch. -/
def civilFromDays (z : Int) : Int × Int × Int :=
  let z' := z + 719468
  let era := Int.tdiv (if 0 ≤ z' then z' else z' - 146096) 146097
  let doe := z' - era * 146097
  let yoe := Int.tdiv (doe - Int.tdiv doe 1460 + Int.tdiv doe 36524 - Int.tdiv doe 146096) 365
  let y := yoe + era * 400
  let doy := doe - (365 * yoe + Int.tdiv yoe 4 - Int.tdiv yoe 100)
  let mp := Int.tdiv (5 * doy + 2) 153
  let d := doy - Int.tdiv (153 * mp + 2) 5 + 1
  let m := mp + (if mp < 10 then 3 else -9)
  (y + (if m ≤ 2 then 1 else 0), m, d)

/-- Left-pad the decimal rendering of a non-negative integer with zeros. -/
def padNum (width : Nat) (n : Int) : String :=
  let s := toString n.toNat
  String.mk (List.replicate (width - s.length) '0') ++ s

/-- Go's `t.UTC().Format("2006-01-02 15:04:05")`. -/
def formatTimestamp (t : GoTime) : String :=
  let days := Int.fdiv t.sec 86400
  let rem := t.sec - days * 86400
  let c := civilFromDays days
  padNum 4 c.1 ++ "-" ++ padNum 2 c.2.1 ++ "-" ++ padNum 2 c.2.2 ++ " " ++
    padNum 2 (Int.tdiv rem 3600) ++ ":" ++ padNum 2 (Int.tdiv rem 60 % 60) ++ ":" ++
    padNum 2 (rem % 60)

/-- Decimal digit value of a character, if it is one. -/
def digitVal (c : Char) : Option Nat :=
  if '0' ≤ c ∧ c ≤ '9' then some (c.toNat - '0'.toNat) else none

/-- Read a fixed-width run of decimal digits. -/
def readDigits (cs : List Char) : Option Nat :=
  cs.foldl (fun acc c => acc.bind fun n => (digitVal c).map fun d => n * 10 + d) (some 0)

/-- Number of days in a month of the proleptic Gregorian calendar. -/
def daysInMonth (y m : Int) : Int :=
  if m = 2 then
    if y % 4 = 0 ∧ (y % 100 ≠ 0 ∨ y % 400 = 0) then 29 else 28
  else if m = 4 ∨ m = 6 ∨ m = 9 ∨ m = 11 then 30
  else 31

/-- Go's `time.Parse("2006-01-02 15:04:05", s)`: `none` models a non-nil
parse error (malformed layout or out-of-range component), in which case Go
also hands back the zero `time.Time`. -/
def parseTimestamp (s : String) : Option GoTime :=
  match s.data with
  | [y1, y2, y3, y4, s1, m1, m2, s2, d1, d2, s3, h1, h2, s4, i1, i2, s5, c1, c2] =>
    if s1 = '-' ∧ s2 = '-' ∧ s3 = ' ' ∧ s4 = ':' ∧ s5 = ':' then
      match readDigits [y1, y2, y3, y4], readDigits [m1, m2], readDigits [d1, d2],
            readDigits [h1, h2], readDigits [i1, i2], readDigits [c1, c2] with
      | some y, some mo, some d, some h, some mi, some sc =>
        if 1 ≤ mo ∧ mo ≤ 12 ∧ 1 ≤ d ∧ (d : Int) ≤ daysInMonth y mo ∧ h < 24 ∧ mi < 60 ∧ sc < 60 then
          some ⟨daysFromCivil y mo d * 86400 + h * 3600 + mi * 60 + sc, 0⟩
        else none
      | _, _, _, _, _, _ => none
    else none
  | _ => none

/-! ## Content normalization (`Store`, line 44 of `model.go`) -/

/-- Go's `strings.Replace(s, "\r\n", "\n", -1)`: left-to-right, non-overlapping. -/
def replaceCRLF : List Char → List Char
  | [] => []
  | c :: cs =>
    if c = '\r' then
      match cs with
      | [] => [c]
      | c2 :: rest =>
        if c2 = '\n' then '\n' :: replaceCRLF rest else c :: replaceCRLF (c2 :: rest)
    else c :: replaceCRLF cs

/-- Go's `strings.Replace(s, "\r", "\n", -1)`. -/
def replaceCR (l : List Char) : List Char :=
  l.map fun c => if c = '\r' then '\n' else c

/-- Go's `strings.Trim(s, "\n")`: drop leading and trailing newline characters. -/
def trimLF (l : List Char) : List Char :=
  ((l.dropWhile fun c => c = '\n').reverse.dropWhile fun c => c = '\n').reverse

/-- The full normalization on line 44 of `model.go`:
`strings.Trim(strings.Replace(strings.Replace(c, "\r\n", "\n", -1), "\r", "\n", -1), "\n") + "\n"`. -/
def normalizeContent (s : String) : String :=
  String.mk (trimLF (replaceCR (replaceCRLF s.data)) ++ ['\n'])

/-- Go's `strings.Contains(s, "\x00")` (a null byte in valid UTF-8 is exactly the
code point 0). -/
def containsNull (s : String) : Bool :=
  s.data.any fun c => c = Char.ofNat 0

/-! ## SHA-256 over `Nat`, reduced modulo 2^32 -/

/-- The constant 2^32, the word modulus of SHA-256. -/
def pow32 : Nat := 4294967296

/-- Right rotation of a 32-bit word. -/
def rotr32 (x n : Nat) : Nat :=
  (x >>> n) ||| ((x <<< (32 - n)) % pow32)

/-- SHA-256 Σ₀. -/
def bigSigma0 (x : Nat) : Nat := rotr32 x 2 ^^^ rotr32 x 13 ^^^ rotr32 x 22

/-- SHA-256 Σ₁. -/
def bigSigma1 (x : Nat) : Nat := rotr32 x 6 ^^^ rotr32 x 11 ^^^ rotr32 x 25

/-- SHA-256 σ₀. -/
def smallSigma0 (x : Nat) : Nat := rotr32 x 7 ^^^ rotr32 x 18 ^^^ (x >>> 3)

/-- SHA-256 σ₁. -/
def smallSigma1 (x : Nat) : Nat := rotr32 x 17 ^^^ rotr32 x 19 ^^^ (x >>> 10)

/-- SHA-256 Ch. -/
def ch32 (x y z : Nat) : Nat := (x &&& y) ^^^ ((x ^^^ 4294967295) &&& z)

/-- SHA-256 Maj. -/
def maj32 (x y z : Nat) : Nat := (x &&& y) ^^^ (x &&& z) ^^^ (y &&& z)

/-- The SHA-256 round constants. -/
def sha256K : List Nat :=
  [1116352408, 1899447441, 3049323471, 3921009573, 961987163,
   1508970993, 2453635748, 2870763221, 3624381080, 310598401,
   607225278, 1426881987, 1925078388, 2162078206, 2614888103,
   3248222580, 3835390401, 4022224774, 264347078, 604807628,
   770255983, 1249150122, 1555081692, 1996064986, 2554220882,
   2821834349, 2952996808, 3210313671, 3336571891, 3584528711,
   113926993, 338241895, 666307205, 773529912, 1294757372,
   1396182291, 1695183700, 1986661051, 2177026350, 2456956037,
   2730485921, 2820302411, 3259730800, 3345764771, 3516065817,
   3600352804, 4094571909, 275423344, 430227734, 506948616,
   659060556, 883997877, 958139571, 1322822218, 1537002063,
   1747873779, 1955562222, 2024104815, 2227730452, 2361852424,
   2428436474, 2756734187, 3204031479, 3329325298]

/-- The SHA-256 initial hash state. -/
def sha256H0 : List Nat :=
  [1779033703, 3144134277, 1013904242,
   2773480762, 1359893119, 2600822924,
   528734635, 1541459225]

/-- Big-endian 8-byte rendering of a length in bits. -/
def be64 (n : Nat) : List Nat :=
  [n >>> 56 &&& 255, n >>> 48 &&& 255, n >>> 40 &&& 255, n >>> 32 &&& 255,
   n >>> 24 &&& 255, n >>> 16 &&& 255, n >>> 8 &&& 255, n &&& 255]

/-- SHA-256 padding: append `0x80`, zeros to 56 mod 64, then the bit length. -/
def sha256Pad (msg : List Nat) : List Nat :=
  msg ++ [0x80] ++ List.replicate ((55 - msg.length % 64 + 64) % 64) 0 ++ be64 (msg.length * 8)

/-- Split a byte list into 64-byte blocks (`fuel` bounds the recursion; each
step consumes at least one byte, so `l.length` is always enough fuel). -/
def toBlocksAux : Nat → List Nat → List (List Nat)
  | 0, _ => []
  | _, [] => []
  | fuel + 1, l => l.take 64 :: toBlocksAux fuel (l.drop 64)

/-- Split a byte list into 64-byte blocks. -/
def toBlocks (l : List Nat) : List (List Nat) :=
  toBlocksAux l.length l

/-- Group bytes into big-endian 32-bit words. -/
def bytesToWords : List Nat → List Nat
  | a :: b :: c :: d :: rest => (((a * 256 + b) * 256 + c) * 256 + d) :: bytesToWords rest
  | _ => []

/-- Extend the 16 message words of a block to the 64-word schedule. -/
def extendWords (ws : Array Nat) : Array Nat :=
  (List.range 48).foldl
    (fun arr idx =>
      let j := idx + 16
      arr.push ((smallSigma1 (arr.getD (j - 2) 0) + arr.getD (j - 7) 0 +
        smallSigma0 (arr.getD (j - 15) 0) + arr.getD (j - 16) 0) % pow32))
    ws

/-- One SHA-256 compression round. -/
def sha256Round (w : Array Nat) (st : Nat × Nat × Nat × Nat × Nat × Nat × Nat × Nat) (i : Nat) :
    Nat × Nat × Nat × Nat × Nat × Nat × Nat × Nat :=
  match st with
  | (a, b, c, d, e, f, g, h) =>
    let t1 := (h + bigSigma1 e + ch32 e f g + sha256K.getD i 0 + w.getD i 0) % pow32
    let t2 := (bigSigma0 a + maj32 a b c) % pow32
    ((t1 + t2) % pow32, a, b, c, (d + t1) % pow32, e, f, g)

/-- Compress one 64-byte block into the running hash state. -/
def sha256Compress (st : List Nat) (block : List Nat) : List Nat :=
  let w := extendWords (bytesToWords block).toArray
  match (List.range 64).foldl (sha256Round w)
      (st.getD 0 0, st.getD 1 0, st.getD 2 0, st.getD 3 0,
       st.getD 4 0, st.getD 5 0, st.getD 6 0, st.getD 7 0) with
  | (a, b, c, d, e, f, g, h) =>
    [(st.getD 0 0 + a) % pow32, (st.getD 1 0 + b) % pow32, (st.getD 2 0 + c) % pow32,
     (st.getD 3 0 + d) % pow32, (st.getD 4 0 + e) % pow32, (st.getD 5 0 + f) % pow32,
     (st.getD 6 0 + g) % pow32, (st.getD 7 0 + h) % pow32]

/-- SHA-256 of a byte sequence, as eight 32-bit words. -/
def sha256Words (msg : List Nat) : List Nat :=
  (toBlocks (sha256Pad msg)).foldl sha256Compress sha256H0

/-- UTF-8 encoding of a single code point. -/
def utf8Char (n : Nat) : List Nat :=
  if n < 0x80 then [n]
  else if n < 0x800 then [0xC0 ||| (n >>> 6), 0x80 ||| (n &&& 0x3F)]
  else if n < 0x10000 then
    [0xE0 ||| (n >>> 12), 0x80 ||| (n >>> 6 &&& 0x3F), 0x80 ||| (n &&& 0x3F)]
  else
    [0xF0 ||| (n >>> 18), 0x80 ||| (n >>> 12 &&& 0x3F), 0x80 ||| (n >>> 6 &&& 0x3F),
     0x80 ||| (n &&& 0x3F)]

/-- Go's `[]byte(s)`: the UTF-8 bytes of a string. -/
def utf8Bytes (s : String) : List Nat :=
  (s.data.map fun c => utf8Char c.toNat).flatten

/-- Lower-case hexadecimal digit. -/
def hexDigit (n : Nat) : Char := "0123456789abcdef".data.getD n '0'

/-- Lower-case hexadecimal rendering of a 32-bit word. -/
def word32Hex (n : Nat) : List Char :=
  [hexDigit (n >>> 28 &&& 15), hexDigit (n >>> 24 &&& 15), hexDigit (n >>> 20 &&& 15),
   hexDigit (n >>> 16 &&& 15), hexDigit (n >>> 12 &&& 15), hexDigit (n >>> 8 &&& 15),
   hexDigit (n >>> 4 &&& 15), hexDigit (n &&& 15)]

/-- The key `hex.EncodeToString(sha256.Sum256([]byte(s))[:])`: the 64-character hex
digest the engine uses as its database key. -/
def sha256Hex (s : String) : String :=
  String.mk ((sha256Words (utf8Bytes s)).map word32Hex).flatten

/-! ## The document data model (`model.go`) -/

/-- Structure `qbin.Document` from `model.go` (the Go field `Syntax` is called `Syn`
here). -/
structure Document where
  ID : String
  Content : String
  Syn : String
  Upload : GoTime
  Expiration : GoTime
  Views : Int
  Custom : String
deriving DecidableEq, Repr

/-- One row of the `documents` table: the tuple `Store` inserts and `Request`
scans (`content, custom, syntax-hint, upload, expiration, views`); the
`expiration` column is nullable. -/
structure Row where
  content : String
  custom : String
  syn : String
  upload : String
  expiration : Option String
  views : Int
deriving DecidableEq, Repr

/-- The `documents` table, keyed by whatever string the engine puts in the
`WHERE id = ?` clause. -/
abbrev DB := List (String × Row)

/-- Query `SELECT ... WHERE id = key`. -/
def dbLookup : DB → String → Option Row
  | [], _ => none
  | (k, r) :: rest, key => if k = key then some r else dbLookup rest key

/-- Statement `UPDATE documents SET views = views + 1 WHERE id = key`. -/
def dbBumpViews (db : DB) (key : String) : DB :=
  db.map fun kr => if kr.1 = key then (kr.1, { kr.2 with views := kr.2.views + 1 }) else kr

/-- Statement `DELETE FROM documents WHERE id = key`. -/
def dbDeleteKey (db : DB) (key : String) : DB :=
  db.filter fun kr => ¬ kr.1 = key

/-- The database and collaborator calls the engine issues, with the key or
arguments each one used. -/
inductive Ev where
  | highlight (content lang : String)
  | escapeHTML (content : String)
  | spamCheck (content : String)
  | scryptKey (pass salt : String)
  | encryptOp (plain key : String)
  | dbInsert (key : String) (row : Row)
  | dbSelect (key : String)
  | dbIncViews (key : String)
  | dbDelete (key : String)
deriving DecidableEq, Repr

/-- Collaborators of the write path that are declared outside the given
source files. Modelled from the spec: `highlightF` returns the rendered
content together with an optional error (a failure is non-fatal for the
write), `escapeHTMLF` is the HTML escaper used for custom documents,
`filterSpamF` returns `some message` on a spam hit and vetoes the write,
`scryptF` is the scrypt key derivation over `(password, salt)`, and
`encryptF` is authenticated symmetric encryption of the rendered content
under the derived key. -/
structure WriteCollab where
  highlightF : String → String → String × Option String
  escapeHTMLF : String → String
  filterSpamF : Document → String → Option String
  scryptF : String → String → String
  encryptF : String → String → Except String String

/-- Collaborators of the read path declared outside the given source files.
Modelled from the spec: `scryptF` is the same scrypt key derivation as on
write, `decryptF` is authenticated symmetric decryption (an `Except.error`
carries the Go error message, `"cipher: message authentication failed"` for
a bad authentication tag), and `stripHTMLF` strips markup for raw
retrieval. -/
structure ReadCollab where
  scryptF : String → String → String
  decryptF : String → String → Except String String
  stripHTMLF : String → String

/-- Function `Store` from `model.go`. `name` stands for the identifier produced by
`GenerateSafeName` (whose success is assumed; its failure aborts before
anything below runs), `now` for `time.Now()`. Returns the Go error or the
mutated document, the resulting table, and the trace of issued calls. -/
def Store (doc : Document) (name : String) (now : GoTime) (wc : WriteCollab) (db : DB) :
    Except String Document × DB × List Ev :=
  let doc := { doc with
    ID := name
    Upload := now.roundSec
    Expiration := doc.Expiration.roundSec
    Content := normalizeContent doc.Content }
  if containsNull doc.Content then
    (.error "file contains 0x00 bytes", db, [])
  else
    let doc := if doc.Custom = "" ∧ doc.Syn = "none" then { doc with Syn := "" } else doc
    let rendered :=
      if doc.Custom = "" then (wc.highlightF doc.Content doc.Syn).1
      else wc.escapeHTMLF doc.Content
    let evs :=
      if doc.Custom = "" then [Ev.highlight doc.Content doc.Syn]
      else [Ev.escapeHTML doc.Content]
    match wc.filterSpamF doc rendered with
    | some msg => (.error ("spam: " ++ msg), db, evs ++ [Ev.spamCheck rendered])
    | none =>
      let evs := evs ++ [Ev.spamCheck rendered]
      let expirationField : Option String :=
        if doc.Expiration = goZeroTime then none else some (formatTimestamp doc.Expiration)
      let salt := formatTimestamp doc.Upload
      let key := wc.scryptF doc.ID salt
      let evs := evs ++ [Ev.scryptKey doc.ID salt]
      match wc.encryptF rendered key with
      | .error e => (.error e, db, evs ++ [Ev.encryptOp rendered key])
      | .ok data =>
        let evs := evs ++ [Ev.encryptOp rendered key]
        let dbKey := sha256Hex doc.ID
        let row : Row := { content := data, custom := doc.Custom, syn := doc.Syn,
                           upload := salt, expiration := expirationField, views := doc.Views }
        (.ok doc, (dbKey, row) :: db, evs ++ [Ev.dbInsert dbKey row])

/-- The tail of `Request` from the expiration evaluation onward (`model.go`
lines 138–161): `content` is the decrypted (or legacy plaintext) content,
`views` the scanned pre-increment counter. -/
def requestFinish (id : String) (raw : Bool) (rc : ReadCollab) (now : GoTime) (row : Row)
    (db : DB) (evs : List Ev) (views : Int) (upload : GoTime) (content : String) :
    Except String Document × DB × List Ev :=
  let finalContent := if raw then rc.stripHTMLF content else content
  let mkDoc : GoTime → Document := fun expT =>
    { ID := id, Content := finalContent, Syn := row.syn, Custom := row.custom,
      Upload := upload, Expiration := expT, Views := views }
  match row.expiration with
  | none => (.ok (mkDoc goZeroTime), db, evs)
  | some expStr =>
    let parsed := parseTimestamp expStr
    let expT := parsed.getD goZeroTime
    if expT.before unixEpochPlus1ns then
      -- volatile document: the DELETE statement uses the raw `id`,
      -- not the hashed key (model.go line 143)
      if views > 0 then (.ok (mkDoc expT), dbDeleteKey db id, evs ++ [Ev.dbDelete id])
      else (.ok (mkDoc expT), db, evs)
    else
      -- a parse error would be surfaced here, but a failed parse yields the
      -- zero time, which is before `time.Unix(0, 1)`, so this branch only
      -- ever sees successfully parsed timestamps
      if parsed.isNone then (.error "parsing time error", db, evs)
      else if expT.before now then (.error "the document has expired", db, evs)
      else (.ok (mkDoc expT), db, evs)

/-- Function `Request` from `model.go`. The asynchronous view-count increment is
recorded at the point the goroutine is launched and applied to the table;
`now` stands for `time.Now()` in the expiration comparison. -/
def Request (id : String) (raw : Bool) (rc : ReadCollab) (now : GoTime) (db : DB) :
    Except String Document × DB × List Ev :=
  let dbKey := sha256Hex id
  match dbLookup db dbKey with
  | none => (.error "sql: no rows in result set", db, [Ev.dbSelect dbKey])
  | some row =>
    let db := dbBumpViews db dbKey
    let evs := [Ev.dbSelect dbKey, Ev.dbIncViews dbKey]
    let views := row.views
    let upload := (parseTimestamp row.upload).getD goZeroTime
    let key := rc.scryptF id (formatTimestamp upload)
    match rc.decryptF row.content key with
    | .error e =>
      if e = "cipher: message authentication failed" ∧ containsNull row.content = false then
        requestFinish id raw rc now row db evs views upload row.content
      else (.error e, db, evs)
    | .ok plain => requestFinish id raw rc now row db evs views upload plain

/-! ## The identifier generator (the unnamed source file) -/

/-- The global `characters` alphabet: `strings.Split("abc...xyz0123456789", "")`. -/
def characters : List String :=
  "abcdefghijklmnopqrstuvwxyz0123456789".data.map fun c => String.mk [c]

/-- The body of `randomWord`, structurally recursive on remaining fuel.
`source n` models the outcome of the `crypto/rand.Int` call on attempt `n`
(`none` = the randomness source failed, `some i` = it returned index
`i < len(array)`; the modulo only makes the model total and is the identity
on every value the source can produce). A `none` result models the fatal
non-return path taken once `tryN` exceeds 10. -/
def randomWordAux (array : List String) (source : Nat → Option Nat) : Nat → Nat → Option String
  | _, 0 => none
  | tryN, fuel + 1 =>
    if tryN > 10 then none
    else
      match source tryN with
      | some i => some (array.getD (i % array.length) "")
      | none => randomWordAux array source (tryN + 1) fuel

/-- Entry point `randomWord(array, 0, nil)`: 12 units of fuel cover attempts 0 through 10
plus the terminal `tryN = 11 > 10` check, so the fuel-exhaustion case is
unreachable. -/
def randomWord (array : List String) (source : Nat → Option Nat) : Option String :=
  randomWordAux array source 0 12

/-- One successful draw: `array[i]` for the index `i` the randomness source
returned (the success case of `randomWord`). -/
def drawWord (array : List String) (idx : Nat) : String :=
  array.getD (idx % array.length) ""

/-- One iteration of the `GenerateName` loop body for index `i`: the
accumulator carries the text built so far and the number of random draws
made so far, and `supply` enumerates the successful draw results. -/
def generateStep (ws : List String) (supply : Nat → Nat) (acc : String × Nat) (i : Nat) :
    String × Nat :=
  let word := if i < 2 ∧ 0 < ws.length then drawWord ws (supply acc.2)
              else drawWord characters (supply acc.2)
  let text := if i < 3 ∧ 0 < ws.length then acc.1 ++ "-" ++ word else acc.1 ++ word
  (text, acc.2 + 1)

/-- Go's `strings.TrimPrefix(s, "-")`: drop one leading dash if present. -/
def trimPrefixDash (s : String) : String :=
  if s.data.head? = some '-' then String.mk s.data.tail else s

/-- Function `GenerateName` with the word list `ws` (the package-global `words`) and a
non-failing randomness supply; returns the generated slug together with the
total number of random draws made. -/
def GenerateName (ws : List String) (supply : Nat → Nat) : String × Nat :=
  let r := (List.range 6).foldl (generateStep ws supply) ("", 0)
  (trimPrefixDash r.1, r.2)

/-! ## Lemmas about the content normalizer -/

/-- The output of the second replacement contains no carriage return. -/
theorem replaceCR_no_cr (l : List Char) : '\r' ∉ replaceCR l := by
  intro h
  obtain ⟨a, _, ha⟩ := List.mem_map.mp h
  by_cases hca : a = '\r' <;> simp [hca] at ha

/-- Trimming only removes characters. -/
theorem trimLF_sublist (l : List Char) : List.Sublist (trimLF l) l := by
  unfold trimLF
  have h1 := (@List.dropWhile_sublist Char
    ((l.dropWhile fun c => c = '\n').reverse) fun c => c = '\n').reverse
  rw [List.reverse_reverse] at h1
  exact h1.trans (List.dropWhile_sublist _)

/-- The first survivor of a `dropWhile` fails the predicate. -/
theorem head_dropWhile {p : Char → Bool} {l : List Char} {a : Char}
    (h : (l.dropWhile p).head? = some a) : p a = false := by
  induction l with
  | nil => simp [List.dropWhile] at h
  | cons c cs ih =>
    rw [List.dropWhile_cons] at h
    by_cases hc : p c
    · rw [if_pos hc] at h; exact ih h
    · rw [if_neg hc] at h
      simp only [List.head?_cons, Option.some_inj] at h
      subst h
      exact Bool.eq_false_iff.mpr hc

/-- The last character of a trimmed list is not a newline. -/
theorem trimLF_getLast {l : List Char} {a : Char} (h : (trimLF l).getLast? = some a) :
    a ≠ '\n' := by
  unfold trimLF at h
  rw [List.getLast?_reverse] at h
  have := head_dropWhile h
  simpa using this

/-- A trimmed list is a prefix of the left-trimmed list. -/
theorem trimLF_prefix (l : List Char) :
    List.IsPrefix (trimLF l) (l.dropWhile fun c => c = '\n') := by
  unfold trimLF
  have h2 := List.reverse_prefix.mpr
    (@List.dropWhile_suffix Char ((l.dropWhile fun c => c = '\n').reverse) fun c => c = '\n')
  simpa using h2

/-- The first character of a trimmed list is not a newline. -/
theorem trimLF_head {l : List Char} {b : Char} (h : (trimLF l).head? = some b) :
    b ≠ '\n' := by
  obtain ⟨t, ht⟩ := trimLF_prefix l
  cases htrim : trimLF l with
  | nil => rw [htrim] at h; simp at h
  | cons c cs =>
    rw [htrim] at h
    simp only [List.head?_cons, Option.some_inj] at h
    subst h
    rw [htrim] at ht
    have hhead : (l.dropWhile fun c => c = '\n').head? = some c := by
      rw [← ht]; rfl
    have := head_dropWhile hhead
    simpa using this

/-- Lemma: `replaceCRLF` does not touch a carriage-return-free list. -/
theorem replaceCRLF_id {l : List Char} (h : '\r' ∉ l) : replaceCRLF l = l := by
  induction l with
  | nil => rfl
  | cons c cs ih =>
    have hc : ¬ c = '\r' := fun he => h (he ▸ List.mem_cons_self c cs)
    have ih' := ih fun hm => h (List.mem_cons_of_mem _ hm)
    cases cs with
    | nil => simp only [replaceCRLF]; rw [if_neg hc]
    | cons c2 rest => simp only [replaceCRLF]; rw [if_neg hc, ih']

/-- Lemma: `replaceCR` does not touch a carriage-return-free list. -/
theorem replaceCR_id {l : List Char} (h : '\r' ∉ l) : replaceCR l = l := by
  unfold replaceCR
  induction l with
  | nil => rfl
  | cons c cs ih =>
    have hc : ¬ c = '\r' := fun he => h (he ▸ List.mem_cons_self c cs)
    simp only [List.map_cons, if_neg hc, List.cons.injEq, true_and]
    exact ih fun hm => h (List.mem_cons_of_mem _ hm)

/-- Lemma: `dropWhile` does not touch a list whose head fails the predicate. -/
theorem dropWhile_id {p : Char → Bool} {l : List Char}
    (h : ∀ a, l.head? = some a → p a = false) : l.dropWhile p = l := by
  cases l with
  | nil => rfl
  | cons c cs =>
    rw [List.dropWhile_cons, if_neg]
    simp [h c rfl]

/-- Trimming does not touch a list with no boundary newlines. -/
theorem trimLF_id {l : List Char} (hh : l.head? ≠ some '\n') (hl : l.getLast? ≠ some '\n') :
    trimLF l = l := by
  unfold trimLF
  have h1 : (l.dropWhile fun c => decide (c = '\n')) = l :=
    dropWhile_id fun a ha => by
      have : a ≠ '\n' := fun he => hh (he ▸ ha)
      simpa using this
  rw [h1]
  have h2 : (l.reverse.dropWhile fun c => decide (c = '\n')) = l.reverse :=
    dropWhile_id fun a ha => by
      rw [List.head?_reverse] at ha
      have : a ≠ '\n' := fun he => hl (he ▸ ha)
      simpa using this
  rw [h2, List.reverse_reverse]

/-! ## Concrete collaborator fixtures for witnesses -/

/-- A benign write-collaborator instance for concrete runs: highlighting
returns the content unchanged with no error, escaping is the identity, the
spam filter never hits, scrypt concatenates password and salt, and
encryption tags the plaintext. -/
def wcOK : WriteCollab :=
  { highlightF := fun c _ => (c, none)
    escapeHTMLF := fun c => c
    filterSpamF := fun _ _ => none
    scryptF := fun p s => p ++ "/" ++ s
    encryptF := fun p _ => Except.ok ("E" ++ p) }

/-- A benign read-collaborator instance for concrete runs: decryption
succeeds and tags the ciphertext. -/
def rcOK : ReadCollab :=
  { scryptF := fun p s => p ++ "/" ++ s
    decryptF := fun c _ => Except.ok ("P" ++ c)
    stripHTMLF := fun c => c }

/-! ## C8: content normalization -/

/-- Claim C8 (confirmed): `Store` normalizes content by converting every CRLF
pair and every lone CR to a newline, stripping all leading and trailing
newlines, and appending exactly one trailing newline: the result contains no
carriage return, ends in a newline that is not preceded by another newline,
starts with a newline only if it is the single-newline result, already
normal content is only extended by the single trailing newline, and the
input `"line1\r\nline2\r"` normalizes to `"line1\nline2\n"`. -/
theorem store_normalizes_line_endings (s : String) :
    normalizeContent "line1\r\nline2\r" = "line1\nline2\n" ∧
    '\r' ∉ (normalizeContent s).data ∧
    (normalizeContent s).data.getLast? = some '\n' ∧
    (∀ c, (normalizeContent s).data.dropLast.getLast? = some c → c ≠ '\n') ∧
    (∀ c, (normalizeContent s).data.head? = some c → c = '\n' →
      (normalizeContent s).data = ['\n']) ∧
    ('\r' ∉ s.data → s.data.head? ≠ some '\n' → s.data.getLast? ≠ some '\n' →
      normalizeContent s = s ++ "\n") := by
  refine ⟨by decide, ?_, ?_, ?_, ?_, ?_⟩
  · show '\r' ∉ trimLF (replaceCR (replaceCRLF s.data)) ++ ['\n']
    intro h
    rcases List.mem_append.mp h with h1 | h1
    · exact replaceCR_no_cr _ ((trimLF_sublist _).mem h1)
    · simp at h1
  · show (trimLF (replaceCR (replaceCRLF s.data)) ++ ['\n']).getLast? = some '\n'
    exact List.getLast?_concat _
  · show ∀ c, (trimLF (replaceCR (replaceCRLF s.data)) ++ ['\n']).dropLast.getLast? = some c →
      c ≠ '\n'
    intro c hc
    rw [List.dropLast_concat] at hc
    exact trimLF_getLast hc
  · show ∀ c, (trimLF (replaceCR (replaceCRLF s.data)) ++ ['\n']).head? = some c → c = '\n' →
      trimLF (replaceCR (replaceCRLF s.data)) ++ ['\n'] = ['\n']
    intro c hc hlf
    cases hcore : trimLF (replaceCR (replaceCRLF s.data)) with
    | nil => rfl
    | cons b bs =>
      rw [hcore, List.cons_append, List.head?_cons, Option.some_inj] at hc
      have hb : b ≠ '\n' := trimLF_head (by rw [hcore]; rfl)
      exact absurd (hc.trans hlf) hb
  · intro hcr hhead hlast
    apply String.ext
    show trimLF (replaceCR (replaceCRLF s.data)) ++ ['\n'] = (s ++ "\n").data
    rw [replaceCRLF_id hcr, replaceCR_id hcr, trimLF_id hhead hlast, String.data_append]

/-- Witness for C8 at the concrete inputs `"line1\r\nline2\r"` and `"a"`. -/
theorem store_normalizes_line_endings_witness :
    normalizeContent "line1\r\nline2\r" = "line1\nline2\n" ∧
    normalizeContent "a" = "a" ++ "\n" :=
  ⟨(store_normalizes_line_endings "a").1,
   (store_normalizes_line_endings "a").2.2.2.2.2 (by decide) (by decide) (by decide)⟩

/-! ## C7: null bytes abort the write -/

/-- Claim C7 (confirmed): if the content still contains a null byte after the
line-ending normalization, `Store` returns the input-rejection error before
any rendering, key derivation, encryption, or persistence: the table is
returned unchanged and the trace of issued collaborator and database calls
is empty. -/
theorem store_rejects_null_bytes (doc : Document) (name : String) (now : GoTime)
    (wc : WriteCollab) (db : DB)
    (h : containsNull (normalizeContent doc.Content) = true) :
    Store doc name now wc db = (.error "file contains 0x00 bytes", db, []) := by
  simp only [Store]
  simp [h]

/-- Witness for C7 at a concrete document whose content holds a null byte. -/
theorem store_rejects_null_bytes_witness :
    Store { ID := "", Content := "bad\x00byte", Syn := "", Upload := ⟨0, 0⟩,
            Expiration := goZeroTime, Views := 0, Custom := "" } "nm" ⟨0, 0⟩ wcOK [] =
      (.error "file contains 0x00 bytes", [], []) :=
  store_rejects_null_bytes _ "nm" ⟨0, 0⟩ wcOK [] (by decide)

set_option maxRecDepth 100000

/-! ## C10: the "none" syntax hint -/

/-- Claim C10 (confirmed): when `Custom` is empty and the syntax hint is
exactly `"none"`, `Store` rewrites the hint to the empty string before
highlighting (the highlight call receives `""`) and persists the empty
string; any other combination persists the hint unchanged. -/
theorem store_rewrites_none_syntax_hint (doc : Document) (name : String) (now : GoTime)
    (wc : WriteCollab) (db : DB) (encF : String → String → String)
    (hnull : containsNull (normalizeContent doc.Content) = false)
    (hspam : ∀ d c, wc.filterSpamF d c = none)
    (henc : ∀ p k, wc.encryptF p k = Except.ok (encF p k)) :
    (doc.Custom = "" → doc.Syn = "none" →
      ∃ row : Row, (Store doc name now wc db).2.1 = (sha256Hex name, row) :: db ∧
        row.syn = "" ∧
        (Store doc name now wc db).2.2.head? =
          some (Ev.highlight (normalizeContent doc.Content) "")) ∧
    (¬ (doc.Custom = "" ∧ doc.Syn = "none") →
      ∃ row : Row, (Store doc name now wc db).2.1 = (sha256Hex name, row) :: db ∧
        row.syn = doc.Syn) := by
  constructor
  · intro hc hs
    simp [Store, hnull, hc, hs, hspam, henc]
  · intro hcs
    by_cases hc : doc.Custom = ""
    · have hs : ¬ doc.Syn = "none" := fun hs => hcs ⟨hc, hs⟩
      simp [Store, hnull, hc, hs, hspam, henc]
    · simp [Store, hnull, hc, hspam, henc]

/-- Witness for C10: a concrete non-custom document with hint `"none"` is
persisted with an empty hint, and one with hint `"go"` keeps it. -/
theorem store_rewrites_none_syntax_hint_witness :
    (∃ row : Row,
      (Store { ID := "", Content := "x", Syn := "none", Upload := ⟨0, 0⟩,
               Expiration := goZeroTime, Views := 0, Custom := "" } "nm" ⟨9, 0⟩ wcOK []).2.1 =
        (sha256Hex "nm", row) :: [] ∧
      row.syn = "" ∧
      (Store { ID := "", Content := "x", Syn := "none", Upload := ⟨0, 0⟩,
               Expiration := goZeroTime, Views := 0, Custom := "" } "nm" ⟨9, 0⟩ wcOK []).2.2.head? =
        some (Ev.highlight (normalizeContent "x") "")) ∧
    (∃ row : Row,
      (Store { ID := "", Content := "x", Syn := "go", Upload := ⟨0, 0⟩,
               Expiration := goZeroTime, Views := 0, Custom := "" } "nm" ⟨9, 0⟩ wcOK []).2.1 =
        (sha256Hex "nm", row) :: [] ∧
      row.syn = "go") :=
  ⟨(store_rewrites_none_syntax_hint _ "nm" ⟨9, 0⟩ wcOK [] (fun p _ => "E" ++ p)
      (by decide) (fun _ _ => rfl) (fun _ _ => rfl)).1 rfl rfl,
   (store_rewrites_none_syntax_hint _ "nm" ⟨9, 0⟩ wcOK [] (fun p _ => "E" ++ p)
      (by decide) (fun _ _ => rfl) (fun _ _ => rfl)).2 (by simp)⟩

/-! ## C6: the persisted view counter -/

/-- C6 counterexample: a concrete `Store` call on a document whose caller
set `Views = 5` persists the row with view count 5, not 0: the stored row is
written out in full, and its `views` field is not zero. -/
theorem store_persists_caller_views_counterexample :
    (Store { ID := "", Content := "hi", Syn := "", Upload := ⟨0, 0⟩,
             Expiration := goZeroTime, Views := 5, Custom := "" } "nm" ⟨1000, 0⟩ wcOK []).2.1 =
      [(sha256Hex "nm",
        { content := "Ehi\n", custom := "", syn := "", upload := "1970-01-01 00:16:40",
          expiration := none, views := 5 })] ∧
    ((Store { ID := "", Content := "hi", Syn := "", Upload := ⟨0, 0⟩,
               Expiration := goZeroTime, Views := 5, Custom := "" } "nm" ⟨1000, 0⟩ wcOK []).2.1.map
        fun kr => kr.2.views) ≠ [0] := by
  constructor
  · decide
  · decide

/-- Claim C6 (corrected): a successful `Store` persists the new record with
the view count taken unchanged from the document's `Views` field (callers
that pass a freshly initialized document therefore get 0, but the field is
not reset by `Store`). -/
theorem store_persists_views_field (doc : Document) (name : String) (now : GoTime)
    (wc : WriteCollab) (db : DB) (encF : String → String → String)
    (hnull : containsNull (normalizeContent doc.Content) = false)
    (hspam : ∀ d c, wc.filterSpamF d c = none)
    (henc : ∀ p k, wc.encryptF p k = Except.ok (encF p k)) :
    ∃ row : Row, (Store doc name now wc db).2.1 = (sha256Hex name, row) :: db ∧
      row.views = doc.Views := by
  by_cases hc : doc.Custom = ""
  · by_cases hs : doc.Syn = "none"
    · simp [Store, hnull, hc, hs, hspam, henc]
    · simp [Store, hnull, hc, hs, hspam, henc]
  · simp [Store, hnull, hc, hspam, henc]

/-- Witness for C6 (amended): the concrete run with `Views = 5` persists 5. -/
theorem store_persists_views_field_witness :
    ∃ row : Row,
      (Store { ID := "", Content := "hi", Syn := "", Upload := ⟨0, 0⟩,
               Expiration := goZeroTime, Views := 5, Custom := "" } "nm" ⟨1000, 0⟩ wcOK []).2.1 =
        (sha256Hex "nm", row) :: [] ∧
      row.views = 5 :=
  store_persists_views_field _ "nm" ⟨1000, 0⟩ wcOK [] (fun p _ => "E" ++ p)
    (by decide) (fun _ _ => rfl) (fun _ _ => rfl)

/-! ## C9: bounded retries in randomWord -/

/-- If the randomness source fails on every attempt up to 10, the draw never
returns a value (models the fatal termination after the retries). -/
theorem randomWordAux_all_fail (array : List String) (source : Nat → Option Nat)
    (h : ∀ t, t ≤ 10 → source t = none) :
    ∀ fuel tryN, randomWordAux array source tryN fuel = none := by
  intro fuel
  induction fuel with
  | zero => intro tryN; rfl
  | succ n ih =>
    intro tryN
    by_cases ht : tryN > 10
    · simp [randomWordAux, ht]
    · have hs := h tryN (by omega)
      simp [randomWordAux, ht, hs]
      exact ih (tryN + 1)

/-- Whatever the source does, a returned draw is an element of the array. -/
theorem randomWordAux_mem (array : List String) (source : Nat → Option Nat)
    (hne : array ≠ []) :
    ∀ fuel tryN s, randomWordAux array source tryN fuel = some s → s ∈ array := by
  intro fuel
  induction fuel with
  | zero => intro tryN s h; simp [randomWordAux] at h
  | succ n ih =>
    intro tryN s h
    by_cases ht : tryN > 10
    · simp [randomWordAux, ht] at h
    · cases hs : source tryN with
      | some i =>
        simp [randomWordAux, ht, hs] at h
        have hlen : 0 < array.length := List.length_pos.mpr hne
        have hm : i % array.length < array.length := Nat.mod_lt _ hlen
        rw [List.getElem?_eq_getElem hm, Option.getD_some] at h
        rw [← h]
        exact List.getElem_mem hm
      | none =>
        simp [randomWordAux, ht, hs] at h
        exact ih (tryN + 1) s h

/-- Claim C9 (confirmed): `randomWord` retries at most 10 times after the
initial attempt and then treats the failure as fatal (it never returns a
value); it always terminates (it is a total function of bounded recursion
depth), and whenever it does return a value, that value is an element of the
given array — in particular never the empty string when the array holds
none. -/
theorem randomWord_bounded_retries (array : List String) (source : Nat → Option Nat)
    (hne : array ≠ []) :
    ((∀ t, t ≤ 10 → source t = none) → randomWord array source = none) ∧
    (∀ s, randomWord array source = some s → s ∈ array) ∧
    (∀ s, randomWord array source = some s → "" ∉ array → s ≠ "") :=
  ⟨fun h => randomWordAux_all_fail array source h 12 0,
   fun s h => randomWordAux_mem array source hne 12 0 s h,
   fun s h hno hse => hno (hse ▸ randomWordAux_mem array source hne 12 0 s h)⟩

/-- Witness for C9: with a source that always fails the draw gives up, and
with a working source the drawn value is in the array. -/
theorem randomWord_bounded_retries_witness :
    randomWord ["x"] (fun _ => none) = none ∧ "x" ∈ ["x"] :=
  ⟨(randomWord_bounded_retries ["x"] (fun _ => none) (by decide)).1 fun _ _ => rfl,
   (randomWord_bounded_retries ["x"] (fun _ => some 0) (by decide)).2.1 "x" rfl⟩

/-! ## C4: the shape of generated names -/

/-- The lowercase-alphanumeric alphabet as characters. -/
def lowerAlnumChars : List Char := "abcdefghijklmnopqrstuvwxyz0123456789".data

/-- Every character draw yields a single lowercase-alphanumeric character. -/
theorem drawWord_characters (k : Nat) :
    ∃ c ∈ lowerAlnumChars, drawWord characters k = String.mk [c] := by
  have hlen : characters.length = 36 := by decide
  have hb : ∀ n, n < 36 → ∃ c ∈ lowerAlnumChars, characters.getD n "" = String.mk [c] := by
    decide
  have hk : k % 36 < 36 := Nat.mod_lt _ (by omega)
  have := hb (k % 36) hk
  simpa [drawWord, hlen] using this

/-- A word draw from a non-empty list yields an element of the list. -/
theorem drawWord_mem {ws : List String} (hne : ws ≠ []) (k : Nat) : drawWord ws k ∈ ws := by
  have hlen : 0 < ws.length := List.length_pos.mpr hne
  have hk : k % ws.length < ws.length := Nat.mod_lt _ hlen
  unfold drawWord
  rw [List.getD_eq_getElem ws "" hk]
  exact List.getElem_mem hk

/-- Unfolding of `GenerateName` for an empty word list: six character draws,
concatenated without separators. -/
theorem generateName_nil (supply : Nat → Nat) :
    GenerateName [] supply =
      (trimPrefixDash (drawWord characters (supply 0) ++ drawWord characters (supply 1) ++
        drawWord characters (supply 2) ++ drawWord characters (supply 3) ++
        drawWord characters (supply 4) ++ drawWord characters (supply 5)), 6) := rfl

/-- Unfolding of `GenerateName` for a non-empty word list: two word draws and
one character draw, each preceded by a dash, then three character draws. -/
theorem generateName_cons (w : String) (ws' : List String) (supply : Nat → Nat) :
    GenerateName (w :: ws') supply =
      (trimPrefixDash ("" ++ "-" ++ drawWord (w :: ws') (supply 0) ++ "-" ++
        drawWord (w :: ws') (supply 1) ++ "-" ++ drawWord characters (supply 2) ++
        drawWord characters (supply 3) ++ drawWord characters (supply 4) ++
        drawWord characters (supply 5)), 6) := by
  have h6 : List.range 6 = [0, 1, 2, 3, 4, 5] := by decide
  simp only [GenerateName, h6, List.foldl, generateStep, drawWord, List.length_cons]
  norm_num

/-- First-component form of `generateName_cons`. -/
theorem generateName_cons_fst (w : String) (ws' : List String) (supply : Nat → Nat) :
    (GenerateName (w :: ws') supply).1 =
      trimPrefixDash ("" ++ "-" ++ drawWord (w :: ws') (supply 0) ++ "-" ++
        drawWord (w :: ws') (supply 1) ++ "-" ++ drawWord characters (supply 2) ++
        drawWord characters (supply 3) ++ drawWord characters (supply 4) ++
        drawWord characters (supply 5)) := by
  rw [generateName_cons]

/-- Claim C4 (confirmed): `GenerateName` makes exactly six random draws; with
an empty word list the result is a 6-character lowercase-alphanumeric string
with no hyphens; with a non-empty word list the result is
`word-word-word<suffix>`: two draws from the word list and a third
single-character draw, hyphen-separated, followed directly (no separator) by
a 3-character lowercase-alphanumeric suffix. -/
theorem generateName_shape (ws : List String) (supply : Nat → Nat) :
    (GenerateName ws supply).2 = 6 ∧
    (ws = [] →
      (GenerateName ws supply).1.data.length = 6 ∧
      (∀ c ∈ (GenerateName ws supply).1.data, c ∈ lowerAlnumChars) ∧
      '-' ∉ (GenerateName ws supply).1.data) ∧
    (ws ≠ [] →
      ∃ w0 ∈ ws, ∃ w1 ∈ ws, ∃ c2 c3 c4 c5 : Char,
        c2 ∈ lowerAlnumChars ∧ c3 ∈ lowerAlnumChars ∧ c4 ∈ lowerAlnumChars ∧
        c5 ∈ lowerAlnumChars ∧
        (GenerateName ws supply).1 =
          w0 ++ "-" ++ w1 ++ "-" ++ String.mk [c2] ++ String.mk [c3, c4, c5]) := by
  refine ⟨?_, ?_, ?_⟩
  · cases ws with
    | nil => rfl
    | cons w ws' => rw [generateName_cons]
  · intro hnil
    subst hnil
    obtain ⟨c0, h0m, h0⟩ := drawWord_characters (supply 0)
    obtain ⟨c1, h1m, h1⟩ := drawWord_characters (supply 1)
    obtain ⟨c2, h2m, h2⟩ := drawWord_characters (supply 2)
    obtain ⟨c3, h3m, h3⟩ := drawWord_characters (supply 3)
    obtain ⟨c4, h4m, h4⟩ := drawWord_characters (supply 4)
    obtain ⟨c5, h5m, h5⟩ := drawWord_characters (supply 5)
    have hdash : ('-' : Char) ∉ lowerAlnumChars := by decide
    have hne0 : c0 ≠ '-' := fun he => hdash (he ▸ h0m)
    have heq : (GenerateName [] supply).1 = String.mk [c0, c1, c2, c3, c4, c5] := by
      rw [generateName_nil, h0, h1, h2, h3, h4, h5]
      show trimPrefixDash (String.mk [c0, c1, c2, c3, c4, c5] : String) = _
      simp [trimPrefixDash, hne0]
    refine ⟨?_, ?_, ?_⟩
    · rw [heq]; rfl
    · rw [heq]
      intro c hc
      simp only [List.mem_cons, List.not_mem_nil, or_false] at hc
      rcases hc with h | h | h | h | h | h <;> subst h <;> assumption
    · rw [heq]
      intro hmem
      simp only [List.mem_cons, List.not_mem_nil, or_false] at hmem
      rcases hmem with h | h | h | h | h | h <;> subst h <;>
        first
        | exact hdash h0m
        | exact hdash h1m
        | exact hdash h2m
        | exact hdash h3m
        | exact hdash h4m
        | exact hdash h5m
  · intro hne
    cases ws with
    | nil => exact absurd rfl hne
    | cons w ws' =>
      obtain ⟨c2, h2m, h2⟩ := drawWord_characters (supply 2)
      obtain ⟨c3, h3m, h3⟩ := drawWord_characters (supply 3)
      obtain ⟨c4, h4m, h4⟩ := drawWord_characters (supply 4)
      obtain ⟨c5, h5m, h5⟩ := drawWord_characters (supply 5)
      refine ⟨drawWord (w :: ws') (supply 0), drawWord_mem (List.cons_ne_nil w ws') (supply 0),
              drawWord (w :: ws') (supply 1), drawWord_mem (List.cons_ne_nil w ws') (supply 1),
              c2, c3, c4, c5, h2m, h3m, h4m, h5m, ?_⟩
      rw [generateName_cons_fst, h2, h3, h4, h5]
      have hdd : "-".data = ['-'] := rfl
      have hed : "".data = ([] : List Char) := rfl
      have hX : ("" ++ "-" ++ drawWord (w :: ws') (supply 0) ++ "-" ++
          drawWord (w :: ws') (supply 1) ++ "-" ++ (String.mk [c2]) ++ (String.mk [c3]) ++
          (String.mk [c4]) ++ (String.mk [c5])).data =
          '-' :: ((drawWord (w :: ws') (supply 0)).data ++
            ('-' :: ((drawWord (w :: ws') (supply 1)).data ++ ('-' :: [c2, c3, c4, c5])))) := by
        simp [String.data_append, List.append_assoc, hdd, hed]
      simp only [trimPrefixDash, hX]
      simp only [List.head?_cons, Option.some.injEq, if_pos, List.tail_cons]
      apply String.ext
      simp [String.data_append, List.append_assoc, hdd]

/-- Witness for C4 at the empty word list and at the word list `["ab"]`,
with the identity supply. -/
theorem generateName_shape_witness :
    (GenerateName [] (fun i => i)).2 = 6 ∧
    (GenerateName [] (fun i => i)).1.data.length = 6 ∧
    (∃ w0 ∈ ["ab"], ∃ w1 ∈ ["ab"], ∃ c2 c3 c4 c5 : Char,
      c2 ∈ lowerAlnumChars ∧ c3 ∈ lowerAlnumChars ∧ c4 ∈ lowerAlnumChars ∧
      c5 ∈ lowerAlnumChars ∧
      (GenerateName ["ab"] (fun i => i)).1 =
        w0 ++ "-" ++ w1 ++ "-" ++ String.mk [c2] ++ String.mk [c3, c4, c5]) :=
  ⟨(generateName_shape [] (fun i => i)).1,
   ((generateName_shape [] (fun i => i)).2.1 rfl).1,
   (generateName_shape ["ab"] (fun i => i)).2.2 (by decide)⟩

/-! ## C3: the legacy-plaintext carve-out on decryption failure -/

/-- Claim C3 (confirmed): on `Request`, a decryption failure carrying exactly
the message-authentication error message, on fetched content with no null
byte, takes the legacy branch: the stored bytes are used as the content and
no error is surfaced (stated for a record with no expiration, so the
expiration policy does not intervene); every other decryption failure is
surfaced to the caller as the error. -/
theorem request_legacy_plaintext (id : String) (rc : ReadCollab) (now : GoTime) (db : DB)
    (row : Row) (e : String)
    (hlook : dbLookup db (sha256Hex id) = some row)
    (hdec : rc.decryptF row.content
        (rc.scryptF id (formatTimestamp ((parseTimestamp row.upload).getD goZeroTime))) =
      Except.error e) :
    (e = "cipher: message authentication failed" → containsNull row.content = false →
      row.expiration = none →
      Request id false rc now db =
        (Except.ok { ID := id, Content := row.content, Syn := row.syn, Custom := row.custom,
                     Upload := (parseTimestamp row.upload).getD goZeroTime,
                     Expiration := goZeroTime, Views := row.views },
         dbBumpViews db (sha256Hex id),
         [Ev.dbSelect (sha256Hex id), Ev.dbIncViews (sha256Hex id)])) ∧
    (¬ (e = "cipher: message authentication failed" ∧ containsNull row.content = false) →
      Request id false rc now db =
        (Except.error e, dbBumpViews db (sha256Hex id),
         [Ev.dbSelect (sha256Hex id), Ev.dbIncViews (sha256Hex id)])) := by
  constructor
  · intro he hnull hexp
    simp [Request, hlook, hdec, he, hnull, requestFinish, hexp]
  · intro hcond
    simp only [Request, hlook, hdec]
    rw [if_neg hcond]

/-- Witness for C3: a concrete legacy read succeeds with the raw bytes, and
a concrete read whose decryption fails differently returns the error. -/
theorem request_legacy_plaintext_witness :
    Request "a" false
        { scryptF := fun p s => p ++ "/" ++ s
          decryptF := fun _ _ => Except.error "cipher: message authentication failed"
          stripHTMLF := fun c => c } ⟨0, 0⟩
        [(sha256Hex "a",
          { content := "CT", custom := "", syn := "", upload := "1970-01-01 00:00:01",
            expiration := none, views := 0 })] =
      (Except.ok { ID := "a", Content := "CT", Syn := "", Custom := "",
                   Upload := ⟨1, 0⟩, Expiration := goZeroTime, Views := 0 },
       dbBumpViews
         [(sha256Hex "a",
           { content := "CT", custom := "", syn := "", upload := "1970-01-01 00:00:01",
             expiration := none, views := 0 })] (sha256Hex "a"),
       [Ev.dbSelect (sha256Hex "a"), Ev.dbIncViews (sha256Hex "a")]) ∧
    Request "a" false
        { scryptF := fun p s => p ++ "/" ++ s
          decryptF := fun _ _ => Except.error "boom"
          stripHTMLF := fun c => c } ⟨0, 0⟩
        [(sha256Hex "a",
          { content := "CT", custom := "", syn := "", upload := "1970-01-01 00:00:01",
            expiration := none, views := 0 })] =
      (Except.error "boom",
       dbBumpViews
         [(sha256Hex "a",
           { content := "CT", custom := "", syn := "", upload := "1970-01-01 00:00:01",
             expiration := none, views := 0 })] (sha256Hex "a"),
       [Ev.dbSelect (sha256Hex "a"), Ev.dbIncViews (sha256Hex "a")]) :=
  ⟨(request_legacy_plaintext "a" _ ⟨0, 0⟩ _
      { content := "CT", custom := "", syn := "", upload := "1970-01-01 00:00:01",
        expiration := none, views := 0 } "cipher: message authentication failed"
      (by simp [dbLookup]) rfl).1 rfl (by decide) rfl,
   (request_legacy_plaintext "a" _ ⟨0, 0⟩ _
      { content := "CT", custom := "", syn := "", upload := "1970-01-01 00:00:01",
        expiration := none, views := 0 } "boom"
      (by simp [dbLookup]) rfl).2 (by decide)⟩

/-! ## C5: hard expiration and unparsable expiration strings -/

/-- Claim C5 (corrected): a document with a successfully parsed hard (not
volatile) expiration lying in the past yields the expiration error and no
content; but a stored non-empty expiration string that fails to parse is not
surfaced as an error: the failed parse leaves the zero time, which lies
before `time.Unix(0, 1)`, so the read takes the volatile branch and
succeeds. -/
theorem request_expiration_policy (id : String) (rc : ReadCollab) (now : GoTime) (db : DB)
    (row : Row) (plain : String) (s : String)
    (hlook : dbLookup db (sha256Hex id) = some row)
    (hdec : rc.decryptF row.content
        (rc.scryptF id (formatTimestamp ((parseTimestamp row.upload).getD goZeroTime))) =
      Except.ok plain)
    (hexp : row.expiration = some s) :
    (∀ t, parseTimestamp s = some t → t.before unixEpochPlus1ns = false →
      t.before now = true →
      Request id false rc now db =
        (Except.error "the document has expired", dbBumpViews db (sha256Hex id),
         [Ev.dbSelect (sha256Hex id), Ev.dbIncViews (sha256Hex id)])) ∧
    (parseTimestamp s = none → row.views ≤ 0 →
      Request id false rc now db =
        (Except.ok { ID := id, Content := plain, Syn := row.syn, Custom := row.custom,
                     Upload := (parseTimestamp row.upload).getD goZeroTime,
                     Expiration := goZeroTime, Views := row.views },
         dbBumpViews db (sha256Hex id),
         [Ev.dbSelect (sha256Hex id), Ev.dbIncViews (sha256Hex id)])) := by
  constructor
  · intro t hp hvol hpast
    simp [Request, hlook, hdec, requestFinish, hexp, hp, hvol, hpast]
  · intro hp hv
    have hnv : ¬ row.views > 0 := by omega
    have hz : goZeroTime.before unixEpochPlus1ns = true := by decide
    simp [Request, hlook, hdec, requestFinish, hexp, hp, hz, hnv]

/-- Witness for C5 (amended): a concrete read of a document that expired in
2000 fails with the expiration error, and a concrete read of a document with
expiration string `"garbage"` succeeds. -/
theorem request_expiration_policy_witness :
    Request "a" false rcOK ⟨1760000000, 0⟩
        [(sha256Hex "a",
          { content := "CT", custom := "", syn := "", upload := "1970-01-01 00:00:01",
            expiration := some "2000-01-01 00:00:00", views := 0 })] =
      (Except.error "the document has expired",
       dbBumpViews
         [(sha256Hex "a",
           { content := "CT", custom := "", syn := "", upload := "1970-01-01 00:00:01",
             expiration := some "2000-01-01 00:00:00", views := 0 })] (sha256Hex "a"),
       [Ev.dbSelect (sha256Hex "a"), Ev.dbIncViews (sha256Hex "a")]) ∧
    Request "a" false rcOK ⟨1760000000, 0⟩
        [(sha256Hex "a",
          { content := "CT", custom := "", syn := "", upload := "1970-01-01 00:00:01",
            expiration := some "garbage", views := 0 })] =
      (Except.ok { ID := "a", Content := "PCT", Syn := "", Custom := "",
                   Upload := ⟨1, 0⟩, Expiration := goZeroTime, Views := 0 },
       dbBumpViews
         [(sha256Hex "a",
           { content := "CT", custom := "", syn := "", upload := "1970-01-01 00:00:01",
             expiration := some "garbage", views := 0 })] (sha256Hex "a"),
       [Ev.dbSelect (sha256Hex "a"), Ev.dbIncViews (sha256Hex "a")]) :=
  ⟨(request_expiration_policy "a" rcOK ⟨1760000000, 0⟩ _
      { content := "CT", custom := "", syn := "", upload := "1970-01-01 00:00:01",
        expiration := some "2000-01-01 00:00:00", views := 0 } "PCT" "2000-01-01 00:00:00"
      (by simp [dbLookup]) rfl rfl).1 ⟨946684800, 0⟩ (by decide) (by decide) (by decide),
   (request_expiration_policy "a" rcOK ⟨1760000000, 0⟩ _
      { content := "CT", custom := "", syn := "", upload := "1970-01-01 00:00:01",
        expiration := some "garbage", views := 0 } "PCT" "garbage"
      (by simp [dbLookup]) rfl rfl).2 (by decide) (by decide)⟩

/-- C5 counterexample: the claim says a failed parse of a stored non-empty
expiration string is surfaced to the caller as an error, but the concrete
read of a record whose expiration column holds `"garbage"` returns the
document with no error. -/
theorem request_unparsable_expiration_counterexample :
    (Request "a" false rcOK ⟨1760000000, 0⟩
        [(sha256Hex "a",
          { content := "CT", custom := "", syn := "", upload := "1970-01-01 00:00:01",
            expiration := some "garbage", views := 0 })]).1 =
      Except.ok { ID := "a", Content := "PCT", Syn := "", Custom := "",
                  Upload := ⟨1, 0⟩, Expiration := goZeroTime, Views := 0 } := by
  rfl

/-! ## C1: the first read of a volatile document -/

/-- Claim C1 (corrected): a read of a volatile document (stored expiration at
or before the epoch) whose persisted view count is zero returns the
decrypted content with no error, but the record is *not* deleted during that
read: the volatile delete is guarded by `Views > 0` on the pre-increment
counter, so the read only bumps the view count and issues no delete. -/
theorem request_volatile_first_read (id : String) (rc : ReadCollab) (now : GoTime) (db : DB)
    (row : Row) (plain : String) (s : String) (t : GoTime)
    (hlook : dbLookup db (sha256Hex id) = some row)
    (hdec : rc.decryptF row.content
        (rc.scryptF id (formatTimestamp ((parseTimestamp row.upload).getD goZeroTime))) =
      Except.ok plain)
    (hexp : row.expiration = some s)
    (hp : parseTimestamp s = some t)
    (hvol : t.before unixEpochPlus1ns = true)
    (hviews : row.views = 0) :
    Request id false rc now db =
      (Except.ok { ID := id, Content := plain, Syn := row.syn, Custom := row.custom,
                   Upload := (parseTimestamp row.upload).getD goZeroTime,
                   Expiration := t, Views := 0 },
       dbBumpViews db (sha256Hex id),
       [Ev.dbSelect (sha256Hex id), Ev.dbIncViews (sha256Hex id)]) := by
  have hnv : ¬ row.views > 0 := by omega
  simp [Request, hlook, hdec, requestFinish, hexp, hp, hvol, hnv, hviews]

/-- Witness for C1 (amended) at a concrete volatile record with zero views. -/
theorem request_volatile_first_read_witness :
    Request "a" false rcOK ⟨1760000000, 0⟩
        [(sha256Hex "a",
          { content := "CT", custom := "", syn := "", upload := "1970-01-01 00:00:01",
            expiration := some "1970-01-01 00:00:00", views := 0 })] =
      (Except.ok { ID := "a", Content := "PCT", Syn := "", Custom := "",
                   Upload := ⟨1, 0⟩, Expiration := ⟨0, 0⟩, Views := 0 },
       dbBumpViews
         [(sha256Hex "a",
           { content := "CT", custom := "", syn := "", upload := "1970-01-01 00:00:01",
             expiration := some "1970-01-01 00:00:00", views := 0 })] (sha256Hex "a"),
       [Ev.dbSelect (sha256Hex "a"), Ev.dbIncViews (sha256Hex "a")]) :=
  request_volatile_first_read "a" rcOK ⟨1760000000, 0⟩ _
    { content := "CT", custom := "", syn := "", upload := "1970-01-01 00:00:01",
      expiration := some "1970-01-01 00:00:00", views := 0 } "PCT" "1970-01-01 00:00:00"
    ⟨0, 0⟩ (by simp [dbLookup]) rfl rfl (by decide) (by decide) rfl

/-- C1 counterexample: after a single read of a volatile document with zero
prior views the record is still in the table (only its view count moved to
1), so the claim's "deleted by the end of that read" is false, even though
the decrypted content was returned with no error. -/
theorem request_volatile_first_read_counterexample :
    (Request "a" false rcOK ⟨1760000000, 0⟩
        [(sha256Hex "a",
          { content := "CT", custom := "", syn := "", upload := "1970-01-01 00:00:01",
            expiration := some "1970-01-01 00:00:00", views := 0 })]).1 =
      Except.ok { ID := "a", Content := "PCT", Syn := "", Custom := "",
                  Upload := ⟨1, 0⟩, Expiration := ⟨0, 0⟩, Views := 0 } ∧
    dbLookup
        (Request "a" false rcOK ⟨1760000000, 0⟩
          [(sha256Hex "a",
            { content := "CT", custom := "", syn := "", upload := "1970-01-01 00:00:01",
              expiration := some "1970-01-01 00:00:00", views := 0 })]).2.1
        (sha256Hex "a") =
      some { content := "CT", custom := "", syn := "", upload := "1970-01-01 00:00:01",
             expiration := some "1970-01-01 00:00:00", views := 1 } := by
  constructor
  · rfl
  · rfl

/-! ## C2: which key each store operation uses -/

/-- C2 (code bug): the fetch and the view-count increment address the record
by the hex-encoded SHA-256 digest of the identifier, and so does the insert
on write; but the volatile delete is issued with the *raw* identifier, which
differs from the digest, so it cannot match the hashed key the record was
stored under — after the read that triggered the delete, the record is still
present under its hashed key. -/
theorem request_delete_uses_raw_id :
    Request "a" false rcOK ⟨1760000000, 0⟩
        [(sha256Hex "a",
          { content := "CT", custom := "", syn := "", upload := "1970-01-01 00:00:01",
            expiration := some "1970-01-01 00:00:00", views := 1 })] =
      (Except.ok { ID := "a", Content := "PCT", Syn := "", Custom := "",
                   Upload := ⟨1, 0⟩, Expiration := ⟨0, 0⟩, Views := 1 },
       [(sha256Hex "a",
         { content := "CT", custom := "", syn := "", upload := "1970-01-01 00:00:01",
           expiration := some "1970-01-01 00:00:00", views := 2 })],
       [Ev.dbSelect (sha256Hex "a"), Ev.dbIncViews (sha256Hex "a"), Ev.dbDelete "a"]) ∧
    sha256Hex "a" ≠ "a" ∧
    (Store { ID := "", Content := "hi", Syn := "", Upload := ⟨0, 0⟩,
             Expiration := goZeroTime, Views := 0, Custom := "" } "nm" ⟨1000, 0⟩ wcOK
        []).2.2.getLast? =
      some (Ev.dbInsert (sha256Hex "nm")
        { content := "Ehi\n", custom := "", syn := "", upload := "1970-01-01 00:16:40",
          expiration := none, views := 0 }) := by
  refine ⟨rfl, ?_, rfl⟩
  decide
